import Mathlib

/-!
Shallow embedding of the tcs repository (browser Snake game):
* `SnakeGame` embeds `src/js/game.js` — the engine state machine, tick
  algorithm, collision detection, food spawning and keyboard handling.
* `Storage` embeds the pure data logic of `src/js/storage.js`
  (the localStorage JSON layer is modelled as an explicit `StoreData` value
  threaded through the operations).
* `Auth` embeds `src/js/auth.js`.

Modelling conventions:
* `Math.floor(Math.random() * gridSize)` draws are modelled by an explicit
  stream of natural-number pairs carried in the state (`rng`); each draw is
  reduced `% gridSize`, which is exactly the range of the JS expression.
  The rejection-sampling `while` loop of `spawnFood` consumes the stream and
  returns `none` when the stream is exhausted (modelling the case where the
  loop has not yet found a free cell — in JS it would keep looping).
* `setInterval(update, speed)` is modelled by `gameLoop : Option Nat`
  holding the interval of the live timer; `clearInterval` sets it to `none`.
* The observer callbacks `onScoreUpdate` / `onGameOver` are modelled by an
  append-only event log in the state.
* Rendering (`render`) only draws on the canvas and never touches the
  simulation state, so it is omitted (a no-op on the modelled state).
* `food` starts as `null` in JS but every reachable call of `update` happens
  after `init`/`reset` has run `spawnFood`; the embedding models the
  post-init states where `food` is a concrete cell.
-/

namespace SnakeGame

/-- Configuration constants, from the CONFIG object of game.js. -/
structure Config where
  gridSize : Nat
  cellSize : Nat
  initialSpeed : Nat
  speedIncrement : Nat
  minSpeed : Nat
deriving DecidableEq, Repr

/-- CONFIG of game.js: grid 20, cell 20 px, speed 150 ms decreasing by 2 ms
per food down to 50 ms. -/
def CONFIG : Config :=
  { gridSize := 20, cellSize := 20, initialSpeed := 150
    speedIncrement := 2, minSpeed := 50 }

/-- A grid cell / segment, integer coordinates (may leave the grid when a
candidate head is computed). -/
structure Point where
  x : Int
  y : Int
deriving DecidableEq, Repr

/-- The four direction objects of game.js. -/
inductive Dir where
  | up
  | down
  | left
  | right
deriving DecidableEq, Repr

/-- The unit delta of a direction (DIRECTIONS table of game.js). -/
def Dir.delta : Dir → Point
  | .up => ⟨0, -1⟩
  | .down => ⟨0, 1⟩
  | .left => ⟨-1, 0⟩
  | .right => ⟨1, 0⟩

/-- The exact reverse of a direction. -/
def Dir.opposite : Dir → Dir
  | .up => .down
  | .down => .up
  | .left => .right
  | .right => .left

/-- The STATES table of game.js. -/
inductive Status where
  | idle
  | playing
  | paused
  | gameOver
deriving DecidableEq, Repr

/-- Observer-callback invocations (onScoreUpdate / onGameOver), recorded as
events. -/
inductive GEvent where
  | scoreUpdate (score : Nat)
  | gameOverEvt (finalScore : Nat)
deriving DecidableEq, Repr

/-- The module-scoped mutable state of game.js, plus the randomness stream
and the callback event log. -/
structure GState where
  snake : List Point
  food : Point
  direction : Dir
  nextDirection : Dir
  score : Nat
  gameState : Status
  gameLoop : Option Nat
  speed : Nat
  rng : List (Nat × Nat)
  events : List GEvent
deriving DecidableEq, Repr

/-- One draw of the pair Math.floor(Math.random()*gridSize) for x and y. -/
def randCell (r : Nat × Nat) : Point :=
  ⟨(r.1 % CONFIG.gridSize : Nat), (r.2 % CONFIG.gridSize : Nat)⟩

/-- checkCollision of game.js: wall test then scan of the whole snake. -/
def checkCollision (snake : List Point) (head : Point) : Bool :=
  if head.x < 0 ∨ (CONFIG.gridSize : Int) ≤ head.x ∨
     head.y < 0 ∨ (CONFIG.gridSize : Int) ≤ head.y then
    true
  else
    snake.any fun seg => decide (seg.x = head.x) && decide (seg.y = head.y)

/-- The rejection-sampling while loop of spawnFood: try successive random
cells until one misses the snake; `none` when the supplied stream runs out
before a free cell is found. -/
def spawnFoodLoop (snake : List Point) : List (Nat × Nat) → Option (Point × List (Nat × Nat))
  | [] => none
  | r :: rs =>
    let c := randCell r
    if snake.any fun seg => decide (seg.x = c.x) && decide (seg.y = c.y) then
      spawnFoodLoop snake rs
    else
      some (c, rs)

/-- spawnFood of game.js: place the food at the first sampled cell off the
snake. -/
def spawnFood (s : GState) : Option GState :=
  (spawnFoodLoop s.snake s.rng).map fun p => { s with food := p.1, rng := p.2 }

/-- reset of game.js: stop any loop, snake of length 3 at the grid centre
heading right, score 0, initial speed, fresh food, state Idle. -/
def reset (s : GState) : Option GState :=
  let startX : Int := (CONFIG.gridSize / 2 : Nat)
  let startY : Int := (CONFIG.gridSize / 2 : Nat)
  let s1 : GState :=
    { s with
      gameLoop := none
      snake := [⟨startX, startY⟩, ⟨startX - 1, startY⟩, ⟨startX - 2, startY⟩]
      direction := .right
      nextDirection := .right
      score := 0
      speed := CONFIG.initialSpeed }
  (spawnFood s1).map fun s2 => { s2 with gameState := .idle }

/-- start of game.js: no-op while Playing; reset when GameOver or Idle; then
Playing with the interval timer started at the current speed. -/
def start (s : GState) : Option GState :=
  if s.gameState = .playing then some s
  else
    let s? : Option GState :=
      if s.gameState = .gameOver ∨ s.gameState = .idle then reset s else some s
    s?.map fun s1 => { s1 with gameState := .playing, gameLoop := some s1.speed }

/-- togglePause of game.js. -/
def togglePause (s : GState) : GState :=
  if s.gameState = .playing then
    { s with gameState := .paused, gameLoop := none }
  else if s.gameState = .paused then
    { s with gameState := .playing, gameLoop := some s.speed }
  else s

/-- getState of game.js. -/
def getState (s : GState) : Status := s.gameState

/-- getScore of game.js. -/
def getScore (s : GState) : Nat := s.score

/-- endGame of game.js: GameOver, timer stopped, onGameOver(score). -/
def endGame (s : GState) : GState :=
  { s with
    gameState := .gameOver
    gameLoop := none
    events := s.events ++ [GEvent.gameOverEvt s.score] }

/-- The key codes distinguished by handleKeyDown of game.js. -/
inductive Key where
  | space
  | arrowUp
  | arrowDown
  | arrowLeft
  | arrowRight
  | keyW
  | keyA
  | keyS
  | keyD
  | other
deriving DecidableEq, Repr

/-- Movement keys (everything handleKeyDown treats as directional input). -/
def Key.isDirectional : Key → Bool
  | .arrowUp | .arrowDown | .arrowLeft | .arrowRight => true
  | .keyW | .keyA | .keyS | .keyD => true
  | _ => false

/-- handleKeyDown of game.js: Space starts from Idle/GameOver and otherwise
toggles pause; movement keys are handled only while Playing and are
validated against the currently committed direction. -/
def handleKeyDown (k : Key) (s : GState) : Option GState :=
  match k with
  | .space =>
    if s.gameState = .idle ∨ s.gameState = .gameOver then start s
    else some (togglePause s)
  | _ =>
    if s.gameState ≠ .playing then some s
    else
      let newDirection : Option Dir :=
        match k with
        | .arrowUp | .keyW => if s.direction ≠ .down then some .up else none
        | .arrowDown | .keyS => if s.direction ≠ .up then some .down else none
        | .arrowLeft | .keyA => if s.direction ≠ .right then some .left else none
        | .arrowRight | .keyD => if s.direction ≠ .left then some .right else none
        | _ => none
      match newDirection with
      | some d => some { s with nextDirection := d }
      | none => some s

/-- update of game.js, the tick body: commit the pending direction, compute
the candidate head, end the game on collision, otherwise advance (grow on
food, else pop the tail). -/
def update (s : GState) : Option GState :=
  if s.gameState ≠ .playing then some s
  else
    let s1 : GState := { s with direction := s.nextDirection }
    let head := s1.snake.headD ⟨0, 0⟩
    let newHead : Point := ⟨head.x + s1.direction.delta.x, head.y + s1.direction.delta.y⟩
    if checkCollision s1.snake newHead then some (endGame s1)
    else
      let s2 : GState := { s1 with snake := newHead :: s1.snake }
      if newHead = s2.food then
        let s3 : GState :=
          { s2 with
            score := s2.score + 10
            events := s2.events ++ [GEvent.scoreUpdate (s2.score + 10)] }
        let s4 : GState :=
          if CONFIG.minSpeed < s3.speed then
            { s3 with
              speed := s3.speed - CONFIG.speedIncrement
              gameLoop := some (s3.speed - CONFIG.speedIncrement) }
          else s3
        spawnFood s4
      else
        some { s2 with snake := s2.snake.dropLast }

/-- destroy of game.js (listener removal has no modelled effect). -/
def destroy (s : GState) : GState := { s with gameLoop := none }

/-- The external stimuli that can reach the engine: a timer tick, a key
event, or one of the public API calls. -/
inductive Action where
  | tick
  | key (k : Key)
  | callStart
  | callReset
  | callPause
  | callDestroy
deriving DecidableEq, Repr

/-- One engine step under an external stimulus. -/
def stepA : Action → GState → Option GState
  | .tick, s => update s
  | .key k, s => handleKeyDown k s
  | .callStart, s => start s
  | .callReset, s => reset s
  | .callPause, s => some (togglePause s)
  | .callDestroy, s => some (destroy s)

/-- Run a sequence of stimuli. -/
def run : List Action → GState → Option GState
  | [], s => some s
  | a :: as, s => (stepA a s).bind (run as)

/-- A state is reachable when it arises from some post-reset state (as
produced by init) by a sequence of stimuli. -/
def ReachableS (s : GState) : Prop :=
  ∃ s₀ s₁ as, reset s₀ = some s₁ ∧ run as s₁ = some s

/-- The candidate head a tick fired in `s` would compute: the current head
plus the delta of the direction committed at that tick (the pending one). -/
def candHead (s : GState) : Point :=
  ⟨(s.snake.headD ⟨0, 0⟩).x + s.nextDirection.delta.x,
   (s.snake.headD ⟨0, 0⟩).y + s.nextDirection.delta.y⟩

/-- Does the tick body starting from `s` take the food-eating branch? -/
def eatsF (s : GState) : Bool :=
  s.gameState == .playing &&
    (!checkCollision s.snake (candHead s) && decide (candHead s = s.food))

/-- Deliver a sequence of key events to handleKeyDown. -/
def foldKeys : List Key → GState → Option GState
  | [], s => some s
  | k :: ks, s => (handleKeyDown k s).bind (foldKeys ks)

/-- Does stimulus `a` delivered in state `s` run reset (directly, or through
start from Idle/GameOver, possibly reached via the Space key)? -/
def resetHappens (a : Action) (s : GState) : Bool :=
  match a with
  | .callReset => true
  | .callStart => !(s.gameState == .playing) && (s.gameState == .gameOver || s.gameState == .idle)
  | .key .space => s.gameState == .idle || s.gameState == .gameOver
  | _ => false

/-- Run a sequence of stimuli while counting the food-eating ticks since the
last reset performed inside the run. -/
def runCount : List Action → GState → Nat → Option (GState × Nat)
  | [], s, n => some (s, n)
  | a :: as, s, n =>
    let n1 : Nat :=
      if resetHappens a s then 0
      else if a = .tick ∧ eatsF s then n + 1 else n
    (stepA a s).bind fun s1 => runCount as s1 n1

/-- A pre-init state whose randomness stream will yield food (0,0) on reset
and food (5,5) on the next spawn. -/
def preInit : GState :=
  { snake := [], food := ⟨0, 0⟩, direction := .right, nextDirection := .right
    score := 0, gameState := .idle, gameLoop := none, speed := 150
    rng := [(0, 0), (5, 5)], events := [] }

/-- The state produced by reset from `preInit`: the fresh Idle board. -/
def idleAfterReset : GState :=
  { snake := [⟨10, 10⟩, ⟨9, 10⟩, ⟨8, 10⟩], food := ⟨0, 0⟩
    direction := .right, nextDirection := .right
    score := 0, gameState := .idle, gameLoop := none, speed := 150
    rng := [(5, 5)], events := [] }

/-- The state produced by start from `idleAfterReset`: start runs reset,
which re-randomizes the food to (5,5), then begins Playing. -/
def startedFromIdle : GState :=
  { snake := [⟨10, 10⟩, ⟨9, 10⟩, ⟨8, 10⟩], food := ⟨5, 5⟩
    direction := .right, nextDirection := .right
    score := 0, gameState := .playing, gameLoop := some 150, speed := 150
    rng := [], events := [] }

/-- A fresh Playing state (the spec scenario board). -/
def freshPlaying : GState :=
  { snake := [⟨10, 10⟩, ⟨9, 10⟩, ⟨8, 10⟩], food := ⟨0, 0⟩
    direction := .right, nextDirection := .right
    score := 0, gameState := .playing, gameLoop := some 150, speed := 150
    rng := [], events := [] }

/-- A Playing state with the head on the rightmost column heading right (the
wall-collision scenario of the spec). -/
def wallPlaying : GState :=
  { snake := [⟨19, 10⟩, ⟨18, 10⟩, ⟨17, 10⟩], food := ⟨0, 0⟩
    direction := .right, nextDirection := .right
    score := 0, gameState := .playing, gameLoop := some 150, speed := 150
    rng := [], events := [] }

end SnakeGame

namespace Storage

/-- A stored user record (storage.js createUser). The password field holds
the integer value of the simple hash; timestamps are abstract naturals
supplied by the caller in place of new Date().toISOString(). -/
structure UserRecord where
  password : Int
  createdAt : Nat
  lastLogin : Nat
  highScore : Nat
  gamesPlayed : Nat
  totalScore : Nat
deriving DecidableEq, Repr

/-- The single namespaced record kept in localStorage (storage.js getData):
a username-to-record mapping plus the current-session username. The JS
object is modelled as an association list (first match wins, insertion
overwrites in place or appends). -/
structure StoreData where
  users : List (String × UserRecord)
  currentUser : Option String
deriving DecidableEq, Repr

/-- getDefaultData of storage.js. -/
def getDefaultData : StoreData := { users := [], currentUser := none }

/-- Wrap an integer to the signed 32-bit range, as the JS bitwise operators
do. -/
def toInt32 (n : Int) : Int := (n + 2 ^ 31) % 2 ^ 32 - 2 ^ 31

/-- simpleHash of storage.js: hash = ((hash << 5) - hash) + charCode,
wrapped to 32 bits each round. The JS function finally renders the value in
hex; the rendering is injective on int32 values so the integer itself is
kept. Character codes are the Unicode scalar values, which coincide with
the UTF-16 units for the basic-plane strings in scope. -/
def simpleHash (str : String) : Int :=
  str.data.foldl (fun h c => toInt32 (toInt32 (h * 32) - h + c.toNat)) 0

/-- JS object update data.users[username] = user on the association list. -/
def setUser (users : List (String × UserRecord)) (username : String) (u : UserRecord) :
    List (String × UserRecord) :=
  match users with
  | [] => [(username, u)]
  | (k, v) :: rest =>
    if k = username then (username, u) :: rest else (k, v) :: setUser rest username u

/-- getUser of storage.js. -/
def getUser (d : StoreData) (username : String) : Option UserRecord :=
  d.users.lookup username

/-- createUser of storage.js. -/
def createUser (d : StoreData) (username password : String) (now : Nat) :
    UserRecord × StoreData :=
  let user : UserRecord :=
    { password := simpleHash password, createdAt := now, lastLogin := now
      highScore := 0, gamesPlayed := 0, totalScore := 0 }
  (user, { d with users := setUser d.users username user })

/-- verifyPassword of storage.js: hash comparison, false for unknown
users. -/
def verifyPassword (d : StoreData) (username password : String) : Bool :=
  match getUser d username with
  | none => false
  | some u => u.password == simpleHash password

/-- updateLoginTime of storage.js. -/
def updateLoginTime (d : StoreData) (username : String) (now : Nat) : StoreData :=
  match getUser d username with
  | none => d
  | some u => { d with users := setUser d.users username { u with lastLogin := now } }

/-- setCurrentUser of storage.js. -/
def setCurrentUser (d : StoreData) (username : Option String) : StoreData :=
  { d with currentUser := username }

/-- getCurrentUser of storage.js. -/
def getCurrentUser (d : StoreData) : Option String := d.currentUser

end Storage

namespace Auth

/-- The structured result object of Auth.login. isNewUser is `none` when
the JS result object carries no isNewUser field. -/
structure LoginResult where
  success : Bool
  message : String
  isNewUser : Option Bool
deriving DecidableEq, Repr

/-- The JS String.prototype.trim: strip whitespace from both ends (written
over the character list so that it evaluates by kernel reduction; the JS
whitespace class coincides with Char.isWhitespace on the inputs in
scope). -/
def jsTrim (s : String) : String :=
  ⟨((s.data.dropWhile Char.isWhitespace).reverse.dropWhile Char.isWhitespace).reverse⟩

/-- login of auth.js: validate inputs, verify the secret for a known
username, auto-register an unknown one. Total — every input yields a
structured result, nothing throws. `now` abstracts the clock readings. -/
def login (username password : String) (now : Nat) (d : Storage.StoreData) :
    LoginResult × Storage.StoreData :=
  if (jsTrim username).length = 0 then
    ({ success := false, message := "请输入用户名", isNewUser := none }, d)
  else if password.length < 3 then
    ({ success := false, message := "密码至少需要3个字符", isNewUser := none }, d)
  else
    let trimmedUsername := jsTrim username
    match Storage.getUser d trimmedUsername with
    | some _ =>
      if Storage.verifyPassword d trimmedUsername password then
        let d1 := Storage.updateLoginTime d trimmedUsername now
        let d2 := Storage.setCurrentUser d1 (some trimmedUsername)
        ({ success := true, message := "登录成功", isNewUser := some false }, d2)
      else
        ({ success := false, message := "密码错误", isNewUser := none }, d)
    | none =>
      let d1 := (Storage.createUser d trimmedUsername password now).2
      let d2 := Storage.setCurrentUser d1 (some trimmedUsername)
      ({ success := true, message := "注册成功，欢迎新玩家！", isNewUser := some true }, d2)

end Auth

namespace SnakeGame

/-! Helper lemmas about the engine operations. -/

/-- A tick fired outside Playing returns immediately, changing nothing. -/
theorem update_not_playing (s : GState) (h : s.gameState ≠ .playing) :
    update s = some s := by
  unfold update
  rw [if_pos h]

/-- Unfolding of a successful spawnFood. -/
theorem spawnFood_some (s s' : GState) (h : spawnFood s = some s') :
    ∃ p rs, spawnFoodLoop s.snake s.rng = some (p, rs) ∧
      s' = { s with food := p, rng := rs } := by
  unfold spawnFood at h
  cases hl : spawnFoodLoop s.snake s.rng with
  | none => rw [hl] at h; simp at h
  | some pr =>
    obtain ⟨p, rs⟩ := pr
    rw [hl] at h
    simp only [Option.map_some', Option.some_inj] at h
    exact ⟨p, rs, rfl, h.symm⟩

/-- spawnFood changes only the food and the randomness stream. -/
theorem spawnFood_fields (s s' : GState) (h : spawnFood s = some s') :
    s'.snake = s.snake ∧ s'.direction = s.direction ∧ s'.nextDirection = s.nextDirection ∧
    s'.score = s.score ∧ s'.gameState = s.gameState ∧ s'.gameLoop = s.gameLoop ∧
    s'.speed = s.speed ∧ s'.events = s.events := by
  obtain ⟨p, rs, -, rfl⟩ := spawnFood_some s s' h
  simp

/-- Membership form of the Point comparison used in the JS loops. -/
theorem point_scan_eq_mem (l : List Point) (p : Point) :
    (l.any fun seg => decide (seg.x = p.x) && decide (seg.y = p.y)) = true ↔ p ∈ l := by
  simp only [List.any_eq_true, Bool.and_eq_true, decide_eq_true_eq]
  constructor
  · rintro ⟨seg, hmem, hx, hy⟩
    cases seg; cases p
    simp_all
  · intro hmem
    exact ⟨p, hmem, rfl, rfl⟩

/-- checkCollision is exactly: out of bounds, or on the snake. -/
theorem checkCollision_iff (snake : List Point) (p : Point) :
    checkCollision snake p = true ↔
      (p.x < 0 ∨ (CONFIG.gridSize : Int) ≤ p.x ∨ p.y < 0 ∨ (CONFIG.gridSize : Int) ≤ p.y ∨
        p ∈ snake) := by
  unfold checkCollision
  split
  · rename_i hb
    simp only [true_iff]
    tauto
  · rename_i hb
    rw [point_scan_eq_mem]
    push_neg at hb
    constructor
    · intro hmem; exact Or.inr (Or.inr (Or.inr (Or.inr hmem)))
    · rintro (h | h | h | h | h)
      · exact absurd h (not_lt.mpr hb.1)
      · exact absurd h (not_le.mpr hb.2.1)
      · exact absurd h (not_lt.mpr hb.2.2.1)
      · exact absurd h (not_le.mpr hb.2.2.2)
      · exact h

/-- A successful spawnFoodLoop result is in bounds and off the snake. -/
theorem spawnFoodLoop_some (snake : List Point) :
    ∀ (rs : List (Nat × Nat)) (c : Point) (rs' : List (Nat × Nat)),
      spawnFoodLoop snake rs = some (c, rs') →
      (0 ≤ c.x ∧ c.x < (CONFIG.gridSize : Int) ∧ 0 ≤ c.y ∧ c.y < (CONFIG.gridSize : Int)) ∧
        c ∉ snake := by
  intro rs
  induction rs with
  | nil => intro c rs' h; simp [spawnFoodLoop] at h
  | cons r rest ih =>
    intro c rs' h
    simp only [spawnFoodLoop] at h
    split at h
    · exact ih c rs' h
    · rename_i hany
      rw [Option.some_inj] at h
      injection h with h1 h2
      subst h1
      refine ⟨?_, ?_⟩
      · refine ⟨Int.ofNat_nonneg _, ?_, Int.ofNat_nonneg _, ?_⟩ <;>
          · simp only [randCell]
            exact_mod_cast Nat.mod_lt _ (by decide)
      · intro hmem
        exact hany ((point_scan_eq_mem snake (randCell r)).mpr hmem)

end SnakeGame

namespace SnakeGame

/-- The tick body while Playing, written as three explicit branches:
collision, food-eating move, plain move. -/
theorem update_eq_branches (s : GState) (h1 : s.gameState = .playing) :
    update s =
      if checkCollision s.snake (candHead s) then
        some { s with
               direction := s.nextDirection
               gameState := .gameOver
               gameLoop := none
               events := s.events ++ [GEvent.gameOverEvt s.score] }
      else if candHead s = s.food then
        spawnFood
          { s with
            direction := s.nextDirection
            snake := candHead s :: s.snake
            score := s.score + 10
            events := s.events ++ [GEvent.scoreUpdate (s.score + 10)]
            speed := if CONFIG.minSpeed < s.speed then s.speed - CONFIG.speedIncrement else s.speed
            gameLoop := if CONFIG.minSpeed < s.speed then some (s.speed - CONFIG.speedIncrement)
                        else s.gameLoop }
      else
        some { s with
               direction := s.nextDirection
               snake := (candHead s :: s.snake).dropLast } := by
  obtain ⟨sn, fd, dir, nd, sc, gs, gl, sp, rg, ev⟩ := s
  dsimp only at h1
  subst h1
  by_cases hsp : CONFIG.minSpeed < sp <;>
    simp [update, candHead, endGame, hsp]

/-- Collision branch of the tick. -/
theorem update_collision_eq (s : GState) (h1 : s.gameState = .playing)
    (h2 : checkCollision s.snake (candHead s) = true) :
    update s =
      some { s with
             direction := s.nextDirection
             gameState := .gameOver
             gameLoop := none
             events := s.events ++ [GEvent.gameOverEvt s.score] } := by
  rw [update_eq_branches s h1, if_pos h2]

/-- Food-eating branch of the tick. -/
theorem update_eat_eq (s : GState) (h1 : s.gameState = .playing)
    (h2 : checkCollision s.snake (candHead s) = false) (h3 : candHead s = s.food) :
    update s =
      spawnFood
        { s with
          direction := s.nextDirection
          snake := candHead s :: s.snake
          score := s.score + 10
          events := s.events ++ [GEvent.scoreUpdate (s.score + 10)]
          speed := if CONFIG.minSpeed < s.speed then s.speed - CONFIG.speedIncrement else s.speed
          gameLoop := if CONFIG.minSpeed < s.speed then some (s.speed - CONFIG.speedIncrement)
                      else s.gameLoop } := by
  rw [update_eq_branches s h1, if_neg (by simp [h2]), if_pos h3]

/-- Plain move branch of the tick. -/
theorem update_move_eq (s : GState) (h1 : s.gameState = .playing)
    (h2 : checkCollision s.snake (candHead s) = false) (h3 : candHead s ≠ s.food) :
    update s =
      some { s with
             direction := s.nextDirection
             snake := (candHead s :: s.snake).dropLast } := by
  rw [update_eq_branches s h1, if_neg (by simp [h2]), if_neg h3]

end SnakeGame

namespace SnakeGame

/-- Unfolding of a successful reset: the fresh board with the sampled
food. -/
theorem reset_some (s s' : GState) (h : reset s = some s') :
    ∃ p rs,
      spawnFoodLoop [⟨10, 10⟩, ⟨9, 10⟩, ⟨8, 10⟩] s.rng = some (p, rs) ∧
      s' = { s with
             gameLoop := none
             snake := [⟨10, 10⟩, ⟨9, 10⟩, ⟨8, 10⟩]
             direction := .right
             nextDirection := .right
             score := 0
             speed := 150
             food := p
             rng := rs
             gameState := .idle } := by
  unfold reset spawnFood at h
  norm_num [CONFIG] at h
  cases hl : spawnFoodLoop [⟨10, 10⟩, ⟨9, 10⟩, ⟨8, 10⟩] s.rng with
  | none => rw [hl] at h; simp at h
  | some pr =>
    obtain ⟨p, rs⟩ := pr
    rw [hl] at h
    obtain ⟨a, b, hab, hrec⟩ := h
    injection hab with hab'
    injection hab' with ha hb
    subst ha
    subst hb
    exact ⟨p, rs, rfl, hrec.symm⟩

/-- C10: a tick that fires while the engine state is not Playing returns
immediately: every piece of engine state is unchanged and no callback is
invoked (the event log is untouched). -/
theorem claim_c10_stray_tick_noop (s : GState) (h : s.gameState ≠ .playing) :
    update s = some s :=
  update_not_playing s h

/-- C10 witness: a stray tick in the concrete fresh Idle state is a no-op. -/
theorem claim_c10_witness : update idleAfterReset = some idleAfterReset :=
  claim_c10_stray_tick_noop idleAfterReset (by decide)

/-- C2 counterexample: delivering the space keypress to the engine key
handler while Idle changes the engine state — it transitions to Playing,
resets the board and starts the timer — so the engine does react to the
dedicated start/pause key. -/
theorem claim_c2_counterexample :
    handleKeyDown Key.space idleAfterReset = some startedFromIdle ∧
    startedFromIdle ≠ idleAfterReset ∧
    idleAfterReset.gameState = Status.idle ∧
    startedFromIdle.gameState = Status.playing := by decide

/-- C2 amended: the engine key handler itself owns the space key — from
Idle or GameOver it invokes start (reset + transition to Playing),
otherwise it invokes togglePause; the presentation layer does not own this
key in the code. -/
theorem claim_c2_amended (s : GState) :
    handleKeyDown Key.space s =
      if s.gameState = .idle ∨ s.gameState = .gameOver then start s
      else some (togglePause s) := rfl

/-- C1 counterexample: start called in the freshly reset Idle state performs
a reset — the food is re-randomized (here from (0,0) to (5,5)) — refuting
the claim that start from Idle skips the reset. -/
theorem claim_c1_counterexample :
    reset preInit = some idleAfterReset ∧
    start idleAfterReset = some startedFromIdle ∧
    startedFromIdle.food ≠ idleAfterReset.food ∧
    idleAfterReset.gameState = Status.idle := by decide

/-- C1 amended: start is a no-op while Playing; from Idle as well as from
GameOver it performs a full reset (re-creating the snake, re-randomizing
the food, re-initializing score and speed) and then transitions to Playing
with the tick timer started at the post-reset speed. -/
theorem claim_c1_amended (s : GState) :
    (s.gameState = .playing → start s = some s) ∧
    ((s.gameState = .idle ∨ s.gameState = .gameOver) →
      start s = (reset s).map fun t =>
        { t with gameState := .playing, gameLoop := some t.speed }) := by
  constructor
  · intro h
    unfold start
    rw [if_pos h]
  · intro h
    have hne : s.gameState ≠ .playing := by rcases h with h | h <;> simp [h]
    unfold start
    rw [if_neg hne, if_pos h.symm]

/-- C1 amended witness: at the concrete fresh Idle state, start equals
reset followed by the transition to Playing. -/
theorem claim_c1_amended_witness :
    start idleAfterReset =
      (reset idleAfterReset).map fun t =>
        { t with gameState := Status.playing, gameLoop := some t.speed } :=
  (claim_c1_amended idleAfterReset).2 (Or.inl rfl)

/-- C6: every food spawn event (the spawnFood call itself, the one inside
reset, and the one on a food-eating tick) that returns places the food in
[0,N)×[0,N) and off every snake segment present at spawn time. -/
theorem claim_c6_spawn_fresh :
    (∀ s s', spawnFood s = some s' →
      (0 ≤ s'.food.x ∧ s'.food.x < (CONFIG.gridSize : Int) ∧
       0 ≤ s'.food.y ∧ s'.food.y < (CONFIG.gridSize : Int)) ∧
      s'.food ∉ s.snake ∧ s'.snake = s.snake) ∧
    (∀ s s', reset s = some s' →
      (0 ≤ s'.food.x ∧ s'.food.x < (CONFIG.gridSize : Int) ∧
       0 ≤ s'.food.y ∧ s'.food.y < (CONFIG.gridSize : Int)) ∧
      s'.food ∉ s'.snake) ∧
    (∀ s s', s.gameState = .playing →
      checkCollision s.snake (candHead s) = false → candHead s = s.food →
      update s = some s' →
      (0 ≤ s'.food.x ∧ s'.food.x < (CONFIG.gridSize : Int) ∧
       0 ≤ s'.food.y ∧ s'.food.y < (CONFIG.gridSize : Int)) ∧
      s'.food ∉ s'.snake) := by
  refine ⟨?_, ?_, ?_⟩
  · intro s s' h
    obtain ⟨p, rs, hl, rfl⟩ := spawnFood_some s s' h
    have hspec := spawnFoodLoop_some s.snake s.rng p rs hl
    exact ⟨hspec.1, hspec.2, rfl⟩
  · intro s s' h
    obtain ⟨p, rs, hl, rfl⟩ := reset_some s s' h
    have hspec := spawnFoodLoop_some _ s.rng p rs hl
    exact ⟨hspec.1, hspec.2⟩
  · intro s s' hp hc heat h
    rw [update_eat_eq s hp hc heat] at h
    obtain ⟨p, rs, hl, rfl⟩ := spawnFood_some _ s' h
    have hspec := spawnFoodLoop_some _ _ p rs hl
    exact ⟨hspec.1, hspec.2⟩

/-- C6 witness: the reset of the concrete pre-init state yields an
in-bounds food off the snake. -/
theorem claim_c6_witness :
    (0 ≤ idleAfterReset.food.x ∧ idleAfterReset.food.x < (CONFIG.gridSize : Int) ∧
     0 ≤ idleAfterReset.food.y ∧ idleAfterReset.food.y < (CONFIG.gridSize : Int)) ∧
    idleAfterReset.food ∉ idleAfterReset.snake :=
  claim_c6_spawn_fresh.2.1 preInit idleAfterReset (by decide)

end SnakeGame

namespace SnakeGame

/-- C3: on a Playing tick whose candidate head (current head plus the
committed direction delta) is out of bounds or coincides with any existing
snake segment (tail included), the engine transitions Playing→GameOver,
stops the timer, invokes the game-over callback with the current score,
leaves snake, score, speed and food unchanged (no prepend), and a further
tick is a no-op. -/
theorem claim_c3_collision_tick (s : GState) (hp : s.gameState = .playing)
    (hc : (candHead s).x < 0 ∨ (CONFIG.gridSize : Int) ≤ (candHead s).x ∨
          (candHead s).y < 0 ∨ (CONFIG.gridSize : Int) ≤ (candHead s).y ∨
          candHead s ∈ s.snake) :
    ∃ s', update s = some s' ∧
      s'.gameState = .gameOver ∧ s'.gameLoop = none ∧
      s'.events = s.events ++ [GEvent.gameOverEvt s.score] ∧
      s'.snake = s.snake ∧ s'.score = s.score ∧ s'.speed = s.speed ∧ s'.food = s.food ∧
      update s' = some s' := by
  have hcol : checkCollision s.snake (candHead s) = true := (checkCollision_iff _ _).mpr hc
  refine ⟨_, update_collision_eq s hp hcol, rfl, rfl, rfl, rfl, rfl, rfl, rfl, ?_⟩
  exact update_not_playing _ (by simp)

/-- C3 witness: the spec scenario — head at (19,10) heading right; the tick
ends the game with the current score and a further tick is a no-op. -/
theorem claim_c3_witness :
    ∃ s', update wallPlaying = some s' ∧
      s'.gameState = .gameOver ∧ s'.gameLoop = none ∧
      s'.events = wallPlaying.events ++ [GEvent.gameOverEvt wallPlaying.score] ∧
      s'.snake = wallPlaying.snake ∧ s'.score = wallPlaying.score ∧
      s'.speed = wallPlaying.speed ∧ s'.food = wallPlaying.food ∧
      update s' = some s' :=
  claim_c3_collision_tick wallPlaying rfl (by decide)

/-- C5: on a non-colliding Playing tick, the new head equals the previous
head plus the committed direction delta and is prepended; on a food-eating
tick the length grows by exactly 1, otherwise the tail is removed and the
length is unchanged. -/
theorem claim_c5_noncolliding_tick (s : GState) (hd : Point) (t : List Point)
    (hp : s.gameState = .playing) (hs : s.snake = hd :: t)
    (hc : checkCollision s.snake (candHead s) = false) :
    candHead s = ⟨hd.x + s.nextDirection.delta.x, hd.y + s.nextDirection.delta.y⟩ ∧
    ∀ s', update s = some s' →
      ((candHead s = s.food →
          s'.snake = candHead s :: s.snake ∧
          s'.snake.length = s.snake.length + 1) ∧
       (candHead s ≠ s.food →
          s'.snake = (candHead s :: s.snake).dropLast ∧
          s'.snake.length = s.snake.length ∧
          s'.snake.head? = some (candHead s))) := by
  refine ⟨by simp [candHead, hs], ?_⟩
  intro s' h'
  constructor
  · intro heat
    rw [update_eat_eq s hp hc heat] at h'
    obtain ⟨p, rs, hl, rfl⟩ := spawnFood_some _ s' h'
    refine ⟨rfl, ?_⟩
    simp
  · intro hne
    rw [update_move_eq s hp hc hne] at h'
    rw [Option.some_inj] at h'
    subst h'
    refine ⟨rfl, ?_, ?_⟩
    · simp [hs, List.length_dropLast]
    · simp [hs]

end SnakeGame

namespace SnakeGame

/-- C5 witness: the spec scenario — fresh board, head (10,10) heading
right, tick with no input: head becomes (11,10), tail (8,10) removed,
length stays 3. -/
theorem claim_c5_witness :
    ({ freshPlaying with snake := [⟨11, 10⟩, ⟨10, 10⟩, ⟨9, 10⟩] } : GState).snake =
      (candHead freshPlaying :: freshPlaying.snake).dropLast ∧
    ({ freshPlaying with snake := [⟨11, 10⟩, ⟨10, 10⟩, ⟨9, 10⟩] } : GState).snake.length =
      freshPlaying.snake.length ∧
    ({ freshPlaying with snake := [⟨11, 10⟩, ⟨10, 10⟩, ⟨9, 10⟩] } : GState).snake.head? =
      some (candHead freshPlaying) :=
  ((claim_c5_noncolliding_tick freshPlaying ⟨10, 10⟩ [⟨9, 10⟩, ⟨8, 10⟩] rfl rfl
      (by decide)).2 _ (by decide)).2 (by decide)

/-- No direction is its own exact reverse. -/
theorem dir_ne_opposite (d : Dir) : d ≠ d.opposite := by
  cases d <;> decide

/-- A non-space key event either leaves the state unchanged or only sets the
pending direction to a value that is not the reverse of the committed
direction (and only while Playing). -/
theorem handleKeyDown_not_space (k : Key) (hk : k ≠ .space) (s s' : GState)
    (h : handleKeyDown k s = some s') :
    s' = s ∨ ∃ d, s' = { s with nextDirection := d } ∧ d ≠ s.direction.opposite ∧
      s.gameState = .playing := by
  obtain ⟨sn, fd, dir, nd, sc, gs, gl, sp, rg, ev⟩ := s
  cases k
  case space => exact absurd rfl hk
  all_goals (
    rcases eq_or_ne gs Status.playing with hg | hg
    · subst hg
      cases dir <;>
        · simp only [handleKeyDown] at h
          simp at h
          subst h
          first
            | exact Or.inl rfl
            | (refine Or.inr ⟨_, rfl, ?_, rfl⟩; simp [Dir.opposite])
    · simp only [handleKeyDown, ne_eq] at h
      rw [if_pos hg] at h
      exact Or.inl (Option.some_inj.mp h).symm)

/-- Delivering any sequence of movement keys preserves the committed
direction and keeps the pending direction off its exact reverse. -/
theorem foldKeys_no_reverse (d : Dir) (ks : List Key) :
    ∀ s : GState, s.direction = d → s.nextDirection ≠ d.opposite →
      (∀ k ∈ ks, k.isDirectional = true) →
      ∀ s', foldKeys ks s = some s' →
        s'.direction = d ∧ s'.nextDirection ≠ d.opposite := by
  induction ks with
  | nil =>
    intro s h1 h2 _ s' h
    simp only [foldKeys, Option.some_inj] at h
    subst h
    exact ⟨h1, h2⟩
  | cons k ks ih =>
    intro s h1 h2 hks s' h
    simp only [foldKeys] at h
    cases hstep : handleKeyDown k s with
    | none => rw [hstep] at h; simp at h
    | some s1 =>
      rw [hstep] at h
      simp only [Option.some_bind] at h
      have hkdir : k.isDirectional = true := hks k (by simp)
      have hkns : k ≠ .space := by
        intro hsp
        subst hsp
        simp [Key.isDirectional] at hkdir
      have hrest : ∀ k' ∈ ks, k'.isDirectional = true :=
        fun k' hk' => hks k' (List.mem_cons_of_mem _ hk')
      rcases handleKeyDown_not_space k hkns s s1 hstep with rfl | ⟨dd, rfl, hdd, -⟩
      · exact ih _ h1 h2 hrest s' h
      · refine ih _ (by simpa using h1) ?_ hrest s' h
        simpa [h1] using hdd

/-- A tick leaves the committed direction either unchanged or equal to the
pending direction it commits. -/
theorem update_direction (s s' : GState) (h : update s = some s') :
    s'.direction = s.direction ∨ s'.direction = s.nextDirection := by
  rcases eq_or_ne s.gameState .playing with hp | hp
  · rw [update_eq_branches s hp] at h
    split at h
    · right
      rw [← Option.some_inj.mp h]
    · split at h
      · right
        obtain ⟨p, rs, hl, rfl⟩ := spawnFood_some _ _ h
        rfl
      · right
        rw [← Option.some_inj.mp h]
  · rw [update_not_playing s hp] at h
    left
    rw [← Option.some_inj.mp h]

/-- C4: starting between two ticks with committed direction d (pending =
committed), no sequence of movement-key inputs can make the direction
committed at the next tick the exact reverse of d — each input is validated
against the committed direction, not the pending one. -/
theorem claim_c4_no_reversal (s : GState) (d : Dir) (ks : List Key)
    (hdir : s.direction = d) (hnext : s.nextDirection = d)
    (hks : ∀ k ∈ ks, k.isDirectional = true) :
    ∀ s', foldKeys ks s = some s' →
      s'.nextDirection ≠ d.opposite ∧
      ∀ s'', update s' = some s'' → s''.direction ≠ d.opposite := by
  intro s' h
  have base : s.nextDirection ≠ d.opposite := by
    rw [hnext]
    exact dir_ne_opposite d
  obtain ⟨h1, h2⟩ := foldKeys_no_reverse d ks s hdir base hks s' h
  refine ⟨h2, ?_⟩
  intro s'' hu
  rcases update_direction s' s'' hu with he | he
  · rw [he, h1]
    exact dir_ne_opposite d
  · rw [he]
    exact h2

/-- C4 witness: a Left input while the committed direction is Right does
not make Left the committed direction of the next tick. -/
theorem claim_c4_witness :
    freshPlaying.nextDirection ≠ Dir.right.opposite :=
  (claim_c4_no_reversal freshPlaying Dir.right [Key.arrowLeft] rfl rfl (by decide)
      freshPlaying (by decide)).1

end SnakeGame

namespace SnakeGame

/-- The food-eating test holds exactly on a Playing, non-colliding tick
whose candidate head is the food. -/
theorem eatsF_true_iff (s : GState) :
    eatsF s = true ↔
      s.gameState = .playing ∧ checkCollision s.snake (candHead s) = false ∧
        candHead s = s.food := by
  unfold eatsF
  simp [Bool.and_eq_true]

/-- Case analysis of a successful start call. -/
theorem start_cases (s s' : GState) (h : start s = some s') :
    (s.gameState = .playing ∧ s' = s) ∨
    ((s.gameState = .idle ∨ s.gameState = .gameOver) ∧
      ∃ t, reset s = some t ∧
        s' = { t with gameState := .playing, gameLoop := some t.speed }) ∨
    (s.gameState = .paused ∧
      s' = { s with gameState := .playing, gameLoop := some s.speed }) := by
  cases hg : s.gameState with
  | playing =>
    left
    refine ⟨rfl, ?_⟩
    unfold start at h
    rw [if_pos hg] at h
    exact (Option.some_inj.mp h).symm
  | idle =>
    right; left
    refine ⟨Or.inl rfl, ?_⟩
    unfold start at h
    rw [if_neg (by simp [hg]), if_pos (Or.inr hg)] at h
    obtain ⟨t, ht, hf⟩ := Option.map_eq_some'.mp h
    exact ⟨t, ht, hf.symm⟩
  | gameOver =>
    right; left
    refine ⟨Or.inr rfl, ?_⟩
    unfold start at h
    rw [if_neg (by simp [hg]), if_pos (Or.inl hg)] at h
    obtain ⟨t, ht, hf⟩ := Option.map_eq_some'.mp h
    exact ⟨t, ht, hf.symm⟩
  | paused =>
    right; right
    refine ⟨rfl, ?_⟩
    unfold start at h
    rw [if_neg (by simp [hg]), if_neg (by simp [hg])] at h
    exact (Option.some_inj.mp h).symm

/-- togglePause never touches speed, score, snake, food, directions, rng or
the event log. -/
theorem togglePause_fields (s : GState) :
    (togglePause s).speed = s.speed ∧ (togglePause s).score = s.score ∧
    (togglePause s).snake = s.snake ∧ (togglePause s).events = s.events ∧
    (togglePause s).food = s.food ∧ (togglePause s).direction = s.direction ∧
    (togglePause s).nextDirection = s.nextDirection ∧ (togglePause s).rng = s.rng := by
  unfold togglePause
  split_ifs <;> simp

/-- A tick either keeps the speed or, on a food-eating tick above the
floor, lowers it by exactly the decrement. -/
theorem update_speed_cases (s s' : GState) (h : update s = some s') :
    s'.speed = s.speed ∨
      (eatsF s = true ∧ CONFIG.minSpeed < s.speed ∧
        s'.speed = s.speed - CONFIG.speedIncrement) := by
  rcases eq_or_ne s.gameState .playing with hp | hp
  · rw [update_eq_branches s hp] at h
    split at h
    case isTrue hcol =>
      left
      rw [← Option.some_inj.mp h]
    case isFalse hcol =>
      split at h
      case isTrue heat =>
        obtain ⟨p, rs, hl, rfl⟩ := spawnFood_some _ _ h
        by_cases hsp : CONFIG.minSpeed < s.speed
        · right
          refine ⟨?_, hsp, by simp [hsp]⟩
          rw [eatsF_true_iff]
          exact ⟨hp, by simpa using hcol, heat⟩
        · left
          simp [hsp]
      case isFalse hne =>
        left
        rw [← Option.some_inj.mp h]
  · rw [update_not_playing s hp] at h
    left
    rw [← Option.some_inj.mp h]

/-- A food-eating tick above the speed floor lowers the speed by exactly
the decrement. -/
theorem update_eat_speed (s s' : GState) (h : update s = some s') (he : eatsF s = true)
    (hsp : CONFIG.minSpeed < s.speed) :
    s'.speed = s.speed - CONFIG.speedIncrement := by
  obtain ⟨hp, hc, hf⟩ := (eatsF_true_iff s).mp he
  rw [update_eat_eq s hp hc hf] at h
  obtain ⟨p, rs, hl, rfl⟩ := spawnFood_some _ _ h
  simp [hsp]

/-- A step that runs reset leaves speed 150 and score 0. -/
theorem stepA_reset_state (a : Action) (s s' : GState) (hr : resetHappens a s = true)
    (h : stepA a s = some s') : s'.speed = 150 ∧ s'.score = 0 := by
  cases a with
  | tick => simp [resetHappens] at hr
  | callPause => simp [resetHappens] at hr
  | callDestroy => simp [resetHappens] at hr
  | callReset =>
    obtain ⟨p, rs, hl, rfl⟩ := reset_some s s' h
    exact ⟨rfl, rfl⟩
  | callStart =>
    rcases start_cases s s' h with ⟨hg, rfl⟩ | ⟨hg, t, ht, rfl⟩ | ⟨hg, rfl⟩
    · simp [resetHappens, hg] at hr
    · obtain ⟨p, rs, hl, rfl⟩ := reset_some s t ht
      exact ⟨rfl, rfl⟩
    · simp [resetHappens, hg] at hr
  | key k =>
    cases k
    case space =>
      have hcond : s.gameState = .idle ∨ s.gameState = .gameOver := by
        simpa [resetHappens] using hr
      have hstart : start s = some s' := by
        simp only [stepA, handleKeyDown] at h
        rwa [if_pos hcond] at h
      rcases start_cases s s' hstart with ⟨hg, rfl⟩ | ⟨hg, t, ht, rfl⟩ | ⟨hg, rfl⟩
      · rcases hcond with hc | hc <;> exact absurd (hc.symm.trans hg) (by decide)
      · obtain ⟨p, rs, hl, rfl⟩ := reset_some s t ht
        exact ⟨rfl, rfl⟩
      · rcases hcond with hc | hc <;> exact absurd (hc.symm.trans hg) (by decide)
    all_goals simp [resetHappens] at hr

/-- A step that does not run reset keeps the speed, except that a
food-eating tick above the floor lowers it by the decrement. -/
theorem stepA_speed_shape (a : Action) (s s' : GState) (hres : resetHappens a s = false)
    (h : stepA a s = some s') :
    s'.speed = s.speed ∨
      (CONFIG.minSpeed < s.speed ∧ s'.speed = s.speed - CONFIG.speedIncrement) := by
  cases a with
  | tick =>
    rcases update_speed_cases s s' h with he | ⟨-, hsp, he⟩
    · exact Or.inl he
    · exact Or.inr ⟨hsp, he⟩
  | callReset => simp [resetHappens] at hres
  | callPause =>
    rw [← Option.some_inj.mp h]
    exact Or.inl (togglePause_fields s).1
  | callDestroy =>
    rw [← Option.some_inj.mp h]
    exact Or.inl rfl
  | callStart =>
    rcases start_cases s s' h with ⟨hg, rfl⟩ | ⟨hg, t, ht, rfl⟩ | ⟨hg, rfl⟩
    · exact Or.inl rfl
    · rcases hg with hg | hg <;> simp [resetHappens, hg] at hres
    · exact Or.inl rfl
  | key k =>
    cases k
    case space =>
      have hcond : ¬(s.gameState = .idle ∨ s.gameState = .gameOver) := by
        simp only [resetHappens, Bool.or_eq_false_iff, beq_eq_false_iff_ne, ne_eq] at hres
        tauto
      simp only [stepA, handleKeyDown] at h
      rw [if_neg hcond] at h
      rw [← Option.some_inj.mp h]
      exact Or.inl (togglePause_fields s).1
    all_goals (
      simp only [stepA] at h
      rcases handleKeyDown_not_space _ (by decide) s s' h with rfl | ⟨dd, rfl, -, -⟩
      · exact Or.inl rfl
      · exact Or.inl rfl)

/-- Along a run, the speed stays at least 50 and even. -/
theorem run_speedInv :
    ∀ (as : List Action) (s s' : GState), run as s = some s' →
      50 ≤ s.speed ∧ 2 ∣ s.speed → 50 ≤ s'.speed ∧ 2 ∣ s'.speed := by
  intro as
  induction as with
  | nil =>
    intro s s' h hi
    simp only [run, Option.some_inj] at h
    subst h
    exact hi
  | cons a as ih =>
    intro s s' h hi
    simp only [run] at h
    cases hstep : stepA a s with
    | none => rw [hstep] at h; simp at h
    | some s1 =>
      rw [hstep] at h
      simp only [Option.some_bind] at h
      refine ih s1 s' h ?_
      cases hres : resetHappens a s with
      | true =>
        obtain ⟨hsp, -⟩ := stepA_reset_state a s s1 hres hstep
        rw [hsp]
        exact ⟨by norm_num, by norm_num⟩
      | false =>
        have hmin : CONFIG.minSpeed = 50 := rfl
        have hinc : CONFIG.speedIncrement = 2 := rfl
        rcases stepA_speed_shape a s s1 hres hstep with he | ⟨hsp, he⟩ <;>
          · rw [he]
            rw [hmin] at *
            rw [hinc] at *
            obtain ⟨h1, h2⟩ := hi
            constructor
            · omega
            · omega

end SnakeGame

namespace SnakeGame

/-- C7: reset starts the speed at the initial 150 ms; within a game (any
step that does not run reset) the speed never increases; a food-eating tick
above the floor lowers it by exactly the 2 ms decrement; and in every
reachable state the speed is at least the 50 ms floor. -/
theorem claim_c7_speed :
    (∀ s₀ s₁, reset s₀ = some s₁ → s₁.speed = CONFIG.initialSpeed) ∧
    (∀ a s s', stepA a s = some s' → resetHappens a s = true ∨ s'.speed ≤ s.speed) ∧
    (∀ s s', update s = some s' → eatsF s = true → CONFIG.minSpeed < s.speed →
      s'.speed = s.speed - CONFIG.speedIncrement) ∧
    (∀ s, ReachableS s → CONFIG.minSpeed ≤ s.speed) := by
  refine ⟨?_, ?_, ?_, ?_⟩
  · intro s₀ s₁ h
    obtain ⟨p, rs, hl, rfl⟩ := reset_some s₀ s₁ h
    rfl
  · intro a s s' h
    cases hres : resetHappens a s
    · right
      rcases stepA_speed_shape a s s' hres h with he | ⟨-, he⟩
      · exact le_of_eq he
      · rw [he]
        exact Nat.sub_le _ _
    · exact Or.inl rfl
  · intro s s' h he hsp
    exact update_eat_speed s s' h he hsp
  · rintro s ⟨s₀, s₁, as, hreset, hrun⟩
    obtain ⟨p, rs, hl, rfl⟩ := reset_some s₀ s₁ hreset
    have := run_speedInv as _ s hrun ⟨by norm_num, by norm_num⟩
    exact this.1

/-- C7 witness: the concrete freshly reset state is reachable and its speed
meets the floor; its reset set the speed to 150. -/
theorem claim_c7_witness :
    idleAfterReset.speed = CONFIG.initialSpeed ∧
    CONFIG.minSpeed ≤ idleAfterReset.speed :=
  ⟨claim_c7_speed.1 preInit idleAfterReset (by decide),
   claim_c7_speed.2.2.2 idleAfterReset ⟨preInit, idleAfterReset, [], by decide, by decide⟩⟩

/-- A tick adds 10 to the score and emits the score callback exactly on the
food-eating case, and keeps the score otherwise. -/
theorem update_score_events (s s' : GState) (h : update s = some s') :
    (eatsF s = true ∧ s'.score = s.score + 10 ∧
      s'.events = s.events ++ [GEvent.scoreUpdate (s.score + 10)]) ∨
    (eatsF s = false ∧ s'.score = s.score) := by
  rcases eq_or_ne s.gameState .playing with hp | hp
  · rw [update_eq_branches s hp] at h
    split at h
    case isTrue hcol =>
      right
      refine ⟨?_, by rw [← Option.some_inj.mp h]⟩
      cases he : eatsF s
      · rfl
      · obtain ⟨-, hc, -⟩ := (eatsF_true_iff s).mp he
        exact absurd hc (by simp [hcol])
    case isFalse hcol =>
      split at h
      case isTrue heat =>
        left
        obtain ⟨p, rs, hl, rfl⟩ := spawnFood_some _ _ h
        refine ⟨?_, rfl, rfl⟩
        rw [eatsF_true_iff]
        exact ⟨hp, by simpa using hcol, heat⟩
      case isFalse hne =>
        right
        refine ⟨?_, by rw [← Option.some_inj.mp h]⟩
        cases he : eatsF s
        · rfl
        · obtain ⟨-, -, hf⟩ := (eatsF_true_iff s).mp he
          exact absurd hf hne
  · rw [update_not_playing s hp] at h
    right
    refine ⟨?_, by rw [← Option.some_inj.mp h]⟩
    cases he : eatsF s
    · rfl
    · obtain ⟨hp2, -, -⟩ := (eatsF_true_iff s).mp he
      exact absurd hp2 hp

/-- A step that does not run reset changes the score exactly by the
food-eating-tick increment. -/
theorem stepA_score_shape (a : Action) (s s' : GState) (hres : resetHappens a s = false)
    (h : stepA a s = some s') :
    s'.score = (if a = .tick ∧ eatsF s = true then s.score + 10 else s.score) := by
  cases a with
  | tick =>
    rcases update_score_events s s' h with ⟨he, hsc, -⟩ | ⟨he, hsc⟩
    · rw [hsc, if_pos ⟨rfl, he⟩]
    · rw [hsc, if_neg]
      rintro ⟨-, he2⟩
      rw [he] at he2
      cases he2
  | callReset => simp [resetHappens] at hres
  | callPause =>
    rw [if_neg (by rintro ⟨h1, -⟩; cases h1), ← Option.some_inj.mp h]
    exact (togglePause_fields s).2.1
  | callDestroy =>
    rw [if_neg (by rintro ⟨h1, -⟩; cases h1), ← Option.some_inj.mp h]
    rfl
  | callStart =>
    rw [if_neg (by rintro ⟨h1, -⟩; cases h1)]
    rcases start_cases s s' h with ⟨hg, rfl⟩ | ⟨hg, t, ht, rfl⟩ | ⟨hg, rfl⟩
    · rfl
    · rcases hg with hg | hg <;> simp [resetHappens, hg] at hres
    · rfl
  | key k =>
    rw [if_neg (by rintro ⟨h1, -⟩; cases h1)]
    cases k
    case space =>
      have hcond : ¬(s.gameState = .idle ∨ s.gameState = .gameOver) := by
        simp only [resetHappens, Bool.or_eq_false_iff, beq_eq_false_iff_ne, ne_eq] at hres
        tauto
      simp only [stepA, handleKeyDown] at h
      rw [if_neg hcond] at h
      rw [← Option.some_inj.mp h]
      exact (togglePause_fields s).2.1
    all_goals (
      simp only [stepA] at h
      rcases handleKeyDown_not_space _ (by decide) s s' h with rfl | ⟨dd, rfl, -, -⟩
      · rfl
      · rfl)

/-- Running with the eating-tick counter: the final state of the counted
run is the final state of the plain run. -/
theorem runCount_fst :
    ∀ (as : List Action) (s : GState) (n : Nat),
      (runCount as s n).map Prod.fst = run as s := by
  intro as
  induction as with
  | nil => intro s n; rfl
  | cons a as ih =>
    intro s n
    simp only [runCount, run]
    cases hstep : stepA a s with
    | none => rfl
    | some s1 =>
      simp only [Option.some_bind]
      exact ih s1 _

/-- Along a counted run, a score equal to ten times the counter stays equal
to ten times the counter. -/
theorem runCount_score :
    ∀ (as : List Action) (s : GState) (n : Nat) (out : GState × Nat),
      s.score = 10 * n → runCount as s n = some out → out.1.score = 10 * out.2 := by
  intro as
  induction as with
  | nil =>
    intro s n out hs h
    simp only [runCount, Option.some_inj] at h
    rw [← h]
    exact hs
  | cons a as ih =>
    intro s n out hs h
    simp only [runCount] at h
    cases hstep : stepA a s with
    | none => rw [hstep] at h; simp at h
    | some s1 =>
      rw [hstep] at h
      simp only [Option.some_bind] at h
      cases hres : resetHappens a s with
      | true =>
        rw [hres] at h
        simp only [if_true] at h
        obtain ⟨-, hsc⟩ := stepA_reset_state a s s1 hres hstep
        exact ih s1 0 out (by rw [hsc]) h
      | false =>
        rw [hres] at h
        simp only [Bool.false_eq_true, if_false] at h
        have hsc := stepA_score_shape a s s1 hres hstep
        by_cases hte : a = .tick ∧ eatsF s = true
        · rw [if_pos hte] at hsc
          have hte' : a = .tick ∧ eatsF s := ⟨hte.1, hte.2⟩
          rw [if_pos hte'] at h
          exact ih s1 (n + 1) out (by rw [hsc, hs]; ring) h
        · rw [if_neg hte] at hsc
          have hte' : ¬(a = .tick ∧ eatsF s) := fun hc => hte ⟨hc.1, hc.2⟩
          rw [if_neg hte'] at h
          exact ih s1 n out (by rw [hsc]; exact hs) h

end SnakeGame

namespace SnakeGame

/-- C8: the score is 0 right after reset; a tick adds exactly 10 and emits
the score callback with the new value exactly on food-eating ticks; along
any stimulus run from a freshly reset state the score equals 10 times the
number of food-eating ticks since the last reset performed in the run; and
every reachable score is a multiple of 10. -/
theorem claim_c8_score :
    (∀ s₀ s₁, reset s₀ = some s₁ → getScore s₁ = 0) ∧
    (∀ s s', update s = some s' →
      (eatsF s = true → s'.score = s.score + 10 ∧
        s'.events = s.events ++ [GEvent.scoreUpdate (s.score + 10)]) ∧
      (eatsF s = false → s'.score = s.score)) ∧
    (∀ s₀ s₁ as out, reset s₀ = some s₁ → runCount as s₁ 0 = some out →
      getScore out.1 = 10 * out.2) ∧
    (∀ s, ReachableS s → 10 ∣ getScore s) := by
  have hreset0 : ∀ s₀ s₁, reset s₀ = some s₁ → s₁.score = 0 := by
    intro s₀ s₁ h
    obtain ⟨p, rs, hl, rfl⟩ := reset_some s₀ s₁ h
    rfl
  refine ⟨hreset0, ?_, ?_, ?_⟩
  · intro s s' h
    rcases update_score_events s s' h with ⟨he, hsc, hev⟩ | ⟨he, hsc⟩
    · exact ⟨fun _ => ⟨hsc, hev⟩, fun hf => (by rw [he] at hf; cases hf)⟩
    · exact ⟨fun ht => (by rw [he] at ht; cases ht), fun _ => hsc⟩
  · intro s₀ s₁ as out hreset hcount
    exact runCount_score as s₁ 0 out (by rw [hreset0 s₀ s₁ hreset]) hcount
  · rintro s ⟨s₀, s₁, as, hreset, hrun⟩
    have hfst := runCount_fst as s₁ 0
    rw [hrun] at hfst
    obtain ⟨out, hout, heq⟩ := Option.map_eq_some'.mp hfst
    have hsc := runCount_score as s₁ 0 out (by rw [hreset0 s₀ s₁ hreset]) hout
    refine ⟨out.2, ?_⟩
    show s.score = 10 * out.2
    rw [← heq]
    exact hsc

/-- C8 witness: the score of the concrete freshly reset state is 0 and a
multiple of 10. -/
theorem claim_c8_witness :
    getScore idleAfterReset = 0 ∧ 10 ∣ getScore idleAfterReset :=
  ⟨claim_c8_score.1 preInit idleAfterReset (by decide),
   claim_c8_score.2.2.2 idleAfterReset ⟨preInit, idleAfterReset, [], by decide, by decide⟩⟩

end SnakeGame

namespace Auth

/-- C9 counterexample: login checks the 31-multiplier string hash, not the
secret itself. "Aaa" and "BBa" are distinct secrets with the same hash
(65569), so after registering "alice" with secret "Aaa", a login with the
wrong secret "BBa" succeeds as a login instead of returning the
password-error failure. -/
theorem claim_c9_counterexample :
    Storage.simpleHash "Aaa" = Storage.simpleHash "BBa" ∧
    ("BBa" : String) ≠ "Aaa" ∧
    (Auth.login "alice" "Aaa" 0 Storage.getDefaultData).1 =
      { success := true, message := "注册成功，欢迎新玩家！", isNewUser := some true } ∧
    (Auth.login "alice" "BBa" 1
        (Auth.login "alice" "Aaa" 0 Storage.getDefaultData).2).1 =
      { success := true, message := "登录成功", isNewUser := some false } := by
  refine ⟨by decide, by decide, by decide, by decide⟩

/-- C9 amended: login never throws (it is a total function into structured
results) and: an empty or whitespace-only username fails with a
human-readable reason; a secret shorter than 3 characters fails with a
human-readable reason; an unknown (trimmed) username auto-registers and
succeeds with isNewUser true; an existing username with a secret whose
31-multiplier hash equals the stored hash succeeds as a login (isNewUser
false, no re-registration — only the login time and session user change);
and a secret whose hash differs from the stored one fails with the
password-error result (so wrong secrets are rejected only up to hash
collisions). -/
theorem claim_c9_login (username password : String) (now : Nat) (d : Storage.StoreData) :
    ((Auth.jsTrim username).length = 0 →
      Auth.login username password now d =
        ({ success := false, message := "请输入用户名", isNewUser := none }, d)) ∧
    ((Auth.jsTrim username).length ≠ 0 → password.length < 3 →
      Auth.login username password now d =
        ({ success := false, message := "密码至少需要3个字符", isNewUser := none }, d)) ∧
    ((Auth.jsTrim username).length ≠ 0 → ¬password.length < 3 →
      Storage.getUser d (Auth.jsTrim username) = none →
      Auth.login username password now d =
        ({ success := true, message := "注册成功，欢迎新玩家！", isNewUser := some true },
         Storage.setCurrentUser
           (Storage.createUser d (Auth.jsTrim username) password now).2
           (some (Auth.jsTrim username)))) ∧
    (∀ u, (Auth.jsTrim username).length ≠ 0 → ¬password.length < 3 →
      Storage.getUser d (Auth.jsTrim username) = some u →
      (u.password = Storage.simpleHash password →
        Auth.login username password now d =
          ({ success := true, message := "登录成功", isNewUser := some false },
           Storage.setCurrentUser
             (Storage.updateLoginTime d (Auth.jsTrim username) now)
             (some (Auth.jsTrim username)))) ∧
      (u.password ≠ Storage.simpleHash password →
        Auth.login username password now d =
          ({ success := false, message := "密码错误", isNewUser := none }, d))) := by
  refine ⟨?_, ?_, ?_, ?_⟩
  · intro h1
    unfold Auth.login
    rw [if_pos h1]
  · intro h1 h2
    unfold Auth.login
    rw [if_neg h1, if_pos h2]
  · intro h1 h2 h3
    simp only [Auth.login, h1, h2, h3, if_false, reduceIte]
  · intro u h1 h2 h3
    constructor
    · intro hpw
      simp only [Auth.login, Storage.verifyPassword, h1, h2, h3, hpw, beq_self_eq_true,
        if_false, reduceIte]
    · intro hpw
      have hbeq : (u.password == Storage.simpleHash password) = false := by
        simpa using hpw
      simp only [Auth.login, Storage.verifyPassword, h1, h2, h3, hbeq, if_false, reduceIte,
        Bool.false_eq_true]

/-- C9 witness: registering a new username "alice" with secret "abc"
succeeds with isNewUser true and records the user. -/
theorem claim_c9_witness :
    Auth.login "alice" "abc" 0 Storage.getDefaultData =
      ({ success := true, message := "注册成功，欢迎新玩家！", isNewUser := some true },
       Storage.setCurrentUser
         (Storage.createUser Storage.getDefaultData (Auth.jsTrim "alice") "abc" 0).2
         (some (Auth.jsTrim "alice"))) :=
  (claim_c9_login "alice" "abc" 0 Storage.getDefaultData).2.2.1 (by decide) (by decide)
    (by decide)

end Auth
